import Mathlib

/-!
Verification development for the LeCroy binary waveform reader
(source: lecroy.py, functions float2eng and ReadBinaryTrace).

The Python source is shallowly embedded below:
* a byte source is a List Nat (one entry per byte);
* machine integers are Nat/Int, with two's-complement reinterpretation made
  explicit (toSigned);
* IEEE-754 float fields are decoded bit-exactly into rationals
  (finite values are dyadic rationals; the infinity/NaN encodings, which no
  claim touches, are mapped to 0), and all float arithmetic of the source is
  idealized as exact rational arithmetic;
* fallible steps return Except/Option, with one error constructor per
  distinct Python exception site.
-/

namespace Lecroy

/-- Little-endian value of a byte list: value = sum of b_i * 256^i. -/
def leVal : List Nat → Nat
  | [] => 0
  | b :: bs => b + 256 * leVal bs

/-- Multi-byte integer read under a byte order.  numpy dtype "<iN"/"<fN"
reads the bytes little-endian first; ">iN"/">fN" big-endian first
(which is the little-endian value of the reversed byte list). -/
def ordVal (little : Bool) (bs : List Nat) : Nat :=
  if little then leVal bs else leVal bs.reverse

/-- Reinterpret a w-byte unsigned value as a two's-complement signed integer
(numpy i1/i2/i4 fields). -/
def toSigned (w : Nat) (v : Nat) : Int :=
  if v < 2 ^ (8 * w - 1) then (v : Int) else (v : Int) - 2 ^ (8 * w)

/-- The exact-rational value domain of the embedding.  A self-contained
canonical fraction (positive denominator, reduced) whose operations the
proof checker evaluates directly; every operation renormalizes, so
structural equality is value equality on every value the decoder builds. -/
structure Q where
  num : Int
  den : Nat
  deriving DecidableEq

instance : Inhabited Q := ⟨⟨0, 1⟩⟩

instance : Repr Q := ⟨fun a _ => repr (a.num, a.den)⟩

def Q.ofInt (n : Int) : Q := ⟨n, 1⟩

instance : IntCast Q := ⟨Q.ofInt⟩

instance : NatCast Q := ⟨fun n => Q.ofInt n⟩

instance (n : Nat) : OfNat Q n := ⟨Q.ofInt n⟩

/-- Canonical form of the fraction n / d: sign moved to the numerator and
the fraction reduced; d = 0 (which no reachable computation produces)
collapses to 0. -/
def Q.norm (n d : Int) : Q :=
  if d = 0 then ⟨0, 1⟩
  else
    let s : Int := if d < 0 then -1 else 1
    let n1 := s * n
    let d1 := (s * d).toNat
    let g := Nat.gcd n1.natAbs d1
    ⟨n1.tdiv g, d1 / g⟩

def Q.add (a b : Q) : Q := Q.norm (a.num * b.den + b.num * a.den) (a.den * b.den)

def Q.neg (a : Q) : Q := ⟨-a.num, a.den⟩

def Q.sub (a b : Q) : Q := a.add b.neg

def Q.mul (a b : Q) : Q := Q.norm (a.num * b.num) (a.den * b.den)

/-- Reciprocal; exchanging numerator and denominator of a reduced fraction
needs no renormalization. -/
def Q.inv (a : Q) : Q :=
  if a.num < 0 then ⟨-(a.den : Int), (-a.num).toNat⟩
  else if a.num = 0 then ⟨0, 1⟩
  else ⟨(a.den : Int), a.num.toNat⟩

def Q.div (a b : Q) : Q := a.mul b.inv

instance : Add Q := ⟨Q.add⟩

instance : Neg Q := ⟨Q.neg⟩

instance : Sub Q := ⟨Q.sub⟩

instance : Mul Q := ⟨Q.mul⟩

instance : Div Q := ⟨Q.div⟩

instance : LT Q := ⟨fun a b => a.num * (b.den : Int) < b.num * (a.den : Int)⟩

instance : LE Q := ⟨fun a b => a.num * (b.den : Int) ≤ b.num * (a.den : Int)⟩

instance (a b : Q) : Decidable (a < b) :=
  inferInstanceAs (Decidable (a.num * (b.den : Int) < b.num * (a.den : Int)))

instance (a b : Q) : Decidable (a ≤ b) :=
  inferInstanceAs (Decidable (a.num * (b.den : Int) ≤ b.num * (a.den : Int)))

/-- q ^ n by structural recursion. -/
def Q.powN (q : Q) : Nat → Q
  | 0 => 1
  | n + 1 => q * q.powN n

/-- q ^ e for an integer exponent: negative exponents via the reciprocal. -/
def Q.powZ (q : Q) (e : Int) : Q :=
  match e with
  | .ofNat n => q.powN n
  | .negSucc n => (q.powN (n + 1)).inv

/-- Absolute value. -/
def Q.abs (a : Q) : Q := if a.num < 0 then a.neg else a

/-- Floor as an integer. -/
def Q.floor (a : Q) : Int := a.num.fdiv a.den

/-- Ceiling as an integer. -/
def Q.ceil (a : Q) : Int := -((-a.num).fdiv a.den)

/-- Round to nearest (ties upward): floor (q + 1/2) in integer arithmetic. -/
def Q.round (a : Q) : Int := (2 * a.num + a.den).fdiv (2 * a.den)

/-- Bit-exact IEEE-754 binary decoding of an unsigned bit pattern with the
given exponent/significand widths into a rational.  Finite values (normal and
subnormal) are exact; the exponent-all-ones patterns (infinity/NaN) are
idealized as 0, which no claim depends on. -/
def decodeIEEE (expBits sigBits : Nat) (v : Nat) : Q :=
  let sign := v / 2 ^ (expBits + sigBits) % 2
  let e := v / 2 ^ sigBits % 2 ^ expBits
  let m := v % 2 ^ sigBits
  let bias : Int := 2 ^ (expBits - 1) - 1
  let mag : Q :=
    if e = 0 then (m : Q) * Q.powZ 2 (1 - bias - sigBits)
    else if e = 2 ^ expBits - 1 then 0
    else ((2 ^ sigBits + m : Nat) : Q) * Q.powZ 2 ((e : Int) - bias - sigBits)
  if sign = 1 then -mag else mag

/-- numpy float32 field. -/
def decodeF32 (v : Nat) : Q := decodeIEEE 8 23 v

/-- numpy float64 field. -/
def decodeF64 (v : Nat) : Q := decodeIEEE 11 52 v

/-- Python bytes.rstrip(padSet): remove the trailing bytes whose values lie
in padSet (any of them, in any order). -/
def rstripSet (padSet : List Nat) (bs : List Nat) : List Nat :=
  (bs.reverse.dropWhile (fun b => padSet.contains b)).reverse

/-- Strip set of the correctly spelled Python literal b"\x00": only NUL. -/
def rstrip0 : List Nat → List Nat := rstripSet [0]

/-- Strip set of the Python literal b"\0x00" as written in the source at the
DESCRIPTOR_NAME, TEMPLATE_NAME, VERTUNIT and HORUNIT reads: that literal is
the four bytes 00 78 30 30 (NUL, letter x, digit 0, digit 0), so rstrip
removes trailing NULs, letters x and digits 0. -/
def rstripX : List Nat → List Nat := rstripSet [0, 120, 48]

/-- Strict UTF-8 decoding of a byte list into characters; models Python
bytes.decode("utf-8"), which raises on malformed input (hence Option). -/
def utf8Chars : List Nat → Option (List Char)
  | [] => some []
  | b :: rest =>
    if b < 0x80 then (utf8Chars rest).map (fun cs => Char.ofNat b :: cs)
    else if b < 0xC2 then none
    else if b < 0xE0 then
      match rest with
      | b1 :: r =>
        if b1 / 64 = 2 then
          (utf8Chars r).map (fun cs => Char.ofNat ((b % 32) * 64 + b1 % 64) :: cs)
        else none
      | [] => none
    else if b < 0xF0 then
      match rest with
      | b1 :: b2 :: r =>
        if b1 / 64 = 2 && b2 / 64 = 2 then
          let c := (b % 16) * 4096 + (b1 % 64) * 64 + b2 % 64
          if c < 0x800 || (0xD800 ≤ c && c < 0xE000) then none
          else (utf8Chars r).map (fun cs => Char.ofNat c :: cs)
        else none
      | _ => none
    else if b < 0xF5 then
      match rest with
      | b1 :: b2 :: b3 :: r =>
        if b1 / 64 = 2 && b2 / 64 = 2 && b3 / 64 = 2 then
          let c := (b % 8) * 262144 + (b1 % 64) * 4096 + (b2 % 64) * 64 + b3 % 64
          if c < 0x10000 || 0x110000 ≤ c then none
          else (utf8Chars r).map (fun cs => Char.ofNat c :: cs)
        else none
      | _ => none
    else none

/-- Python bytes.decode("utf-8") as an Option-valued String decoder. -/
def utf8? (bs : List Nat) : Option String :=
  (utf8Chars bs).map fun cs => String.mk cs

/-- Remove trailing decimal zeros from a significand of at most 7 digits
(the C %g conversion suppresses trailing zeros). -/
def stripTrailZeros (m : Nat) : Nat :=
  (List.range 7).foldl (fun a _ => if a % 10 = 0 && a ≠ 0 then a / 10 else a) m

/-- Largest e with b^e <= n (and 0 when n < b), by fuel recursion; the fuel
bounds the number of base-b digits of n. -/
def natLogF : Nat → Nat → Nat → Nat
  | 0, _, _ => 0
  | f + 1, b, n => if n < b then 0 else 1 + natLogF f b (n / b)

/-- Smallest e with n <= b^e, by fuel recursion. -/
def natClogF : Nat → Nat → Nat → Nat
  | 0, _, _ => 0
  | f + 1, b, n => if n ≤ 1 then 0 else 1 + natClogF f b ((n + b - 1) / b)

/-- Floor of the base-10 logarithm of a positive rational, the exact-value
idealization of float64 floor(log10 x): for q >= 1 count the digits of the
integer part, otherwise negate the ceiling logarithm of the inverse.  20000
units of fuel cover every value this development manipulates (exponent
magnitudes stay far below 20000). -/
def qlog10 (q : Q) : Int :=
  if 1 ≤ q then (natLogF 20000 10 q.floor.toNat : Int)
  else -(natClogF 20000 10 q.inv.ceil.toNat : Int)

/-- Little-endian decimal digits of a natural number, by fuel recursion. -/
def digitsF : Nat → Nat → List Nat
  | 0, _ => []
  | f + 1, n => if n = 0 then [] else n % 10 :: digitsF f (n / 10)

/-- Decimal digit string of a natural number (most significant first). -/
def natDigitsStr (m : Nat) : String :=
  String.mk ((digitsF 12 m).reverse.map fun d => Char.ofNat (48 + d))

/-- Fixed-notation rendering of a value whose significant digits are the
decimal digits of m (no trailing zeros) and whose leading digit has decimal
exponent e, for -4 <= e < 6, as produced by the C %g conversion. -/
def fixedStr (m : Nat) (e : Int) : String :=
  let ds := (digitsF 12 m).reverse.map fun d => Char.ofNat (48 + d)
  if e < 0 then
    "0." ++ String.mk (List.replicate (e.natAbs - 1) '0') ++ String.mk ds
  else
    let ip := e.toNat + 1
    if ds.length ≤ ip then
      String.mk ds ++ String.mk (List.replicate (ip - ds.length) '0')
    else
      String.mk (ds.take ip) ++ "." ++ String.mk (ds.drop ip)

/-- Scientific-notation rendering with a two-digit exponent, as produced by
the C %g conversion outside the fixed range. -/
def sciStr (m : Nat) (e : Int) : String :=
  let ds := (digitsF 12 m).reverse.map fun d => Char.ofNat (48 + d)
  let mantStr :=
    match ds with
    | [] => "0"
    | c :: [] => String.mk [c]
    | c :: cs => String.mk [c] ++ "." ++ String.mk cs
  let sgn := if e < 0 then "-" else "+"
  let a := e.natAbs
  let digits := if a < 10 then "0" ++ natDigitsStr a else natDigitsStr a
  mantStr ++ "e" ++ sgn ++ digits

/-- Model of the C %g conversion (default precision 6) on exact rationals:
round to 6 significant digits, drop trailing zeros, and use fixed notation
when the decimal exponent lies in [-4, 6), scientific notation otherwise.
(%g rounds ties to even; round here is to nearest with ties up, which no
value produced by this development hits.) -/
def fmtG (q : Q) : String :=
  if q = 0 then "0"
  else
    let sgn := if q < 0 then "-" else ""
    let a := Q.abs q
    let e : Int := qlog10 a
    let m0 : Nat := (Q.round (a * Q.powZ 10 (5 - e))).toNat
    let m1 := if 10 ^ 6 ≤ m0 then m0 / 10 else m0
    let e1 := if 10 ^ 6 ≤ m0 then e + 1 else e
    let m := stripTrailZeros m1
    if -4 ≤ e1 ∧ e1 < 6 then sgn ++ fixedStr m e1 else sgn ++ sciStr m e1

/-- Embedding of float2eng (lecroy.py, lines 25-40): engineering
representation with SI prefixes.  The float64 logarithm/floor of the source
is idealized as the exact base-10 logarithm floor on rationals (qlog10);
the % and the int((exeng+24)/3) of the source act on integers that are
nonnegative there, so emod/ediv match. -/
def float2eng (f : Q) : String :=
  let ex : Int := if f ≠ 0 then qlog10 (Q.abs f) else 0
  let exeng0 := ex - ex % 3
  let exeng := if exeng0 < -24 then -24 else if 24 < exeng0 then 24 else exeng0
  let mant := f / Q.powZ 10 exeng
  let tbl := "yzafpnum kMGTPEZY"
  let id := ((exeng + 24) / 3).toNat
  let up := if id = 8 then "" else String.mk [tbl.toList.getD id ' ']
  fmtG mant ++ " " ++ up

/-- The divisions table (1, 2, 5) bound by the non-EXTERNAL branch of the
TIMEBASE decode (line 227). -/
def divisionsTbl : List Q := [1, 2, 5]

/-- Value formatted for the TIMEBASE label (lines 227-230):
divisions[TIMEBASE_INDEX % 3] * 10 ** (int(TIMEBASE_INDEX / 3) - 12).
Python % on ints gives the sign of the (positive) divisor, matching emod;
int() of the true quotient truncates toward zero, matching Int.div. -/
def tbValue (idx : Int) : Q :=
  divisionsTbl.getD ((idx.emod 3).toNat) 0 * Q.powZ 10 (Int.tdiv idx 3 - 12)

/-- Value formatted for the FIXED_VERT_GAIN label (lines 236-238), using the
same divisions table with exponent int(FIXED_VERT_GAIN_INDEX / 3) - 6. -/
def fvgValue (idx : Int) : Q :=
  divisionsTbl.getD ((idx.emod 3).toNat) 0 * Q.powZ 10 (Int.tdiv idx 3 - 6)

/-- Python tuple indexing tbl[i]: a nonnegative index must be below the
length, a negative index counts from the end; anything else raises
IndexError (hence none). -/
def pyIndex (tbl : List String) (i : Int) : Option String :=
  let j := if i < 0 then i + tbl.length else i
  if 0 ≤ j ∧ j < (tbl.length : Int) then some (tbl.getD j.toNat "") else none

def commTypeTbl : List String := ["byte", "word"]

def commOrderTbl : List String := ["HIFIRST", "LOFIRST"]

def recordTypeTbl : List String :=
  ["single sweep", "interleaved", "histogram", "graph", "filter_coefficient",
   "complex", "extrema", "sequence obsolete", "centered RIS", "peak detect"]

def processingTbl : List String :=
  ["no processing", "fir filter", "interpolated", "sparsed", "autoscaled",
   "no result", "rolling", "cumulative"]

def vertCouplingTbl : List String :=
  ["DC 50 Ohms", "ground", "DC 1MOhm", "ground", "AC 1MOhm"]

def bandwidthTbl : List String := ["off", "on"]

/-- One error constructor per distinct Python exception site of the source:
RuntimeError lines 149/167/249/328, UnicodeDecodeError from bytes.decode,
IndexError from tuple indexing and from indexing an empty np.fromfile result,
ValueError from np.zeros/reshape with a bad dimension, and the
UnboundLocalError raised when FIXED_VERT_GAIN uses the divisions name that
only the non-EXTERNAL TIMEBASE branch binds. -/
inductive DErr
  | headerNotFound
  | encodingError
  | enumOutOfRange
  | unsupportedTemplate
  | headerLengthMismatch
  | unevenSegmentSplit
  | truncatedInput
  | negativeDim
  | unboundName
  deriving DecidableEq, Repr, Inhabited

/-- The WAVEDESC dict of the source (lines 252-317), as a fixed record; the
TRIGGER_TIME tuple is stored as its seven components. -/
structure Header where
  DESCRIPTOR_NAME : String
  TEMPLATE_NAME : String
  COMM_TYPE_INDEX : Int
  COMM_TYPE : String
  COMM_ORDER_INDEX : Int
  COMM_ORDER : String
  WAVE_DESCRIPTOR : Int
  USER_TEXT : Int
  RES_DESC1 : Int
  TRIGTIME_ARRAY : Int
  RIS_TIME_ARRAY : Int
  RES_ARRAY1 : Int
  WAVE_ARRAY_1 : Int
  WAVE_ARRAY_2 : Int
  RES_ARRAY2 : Int
  RES_ARRAY3 : Int
  INSTRUMENT_NAME : String
  INSTRUMENT_NUMBER : Int
  TRACE_LABEL : String
  RESERVED1 : Int
  RESERVED2 : Int
  WAVE_ARRAY_COUNT : Int
  PNTS_PER_SCREEN : Int
  FIRST_VALID_PNT : Int
  LAST_VALID_PNT : Int
  FIRST_POINT : Int
  SPARSING_FACTOR : Int
  SEGMENT_INDEX : Int
  SUBARRAY_COUNT : Int
  SWEEPS_PER_ACQ : Int
  POINTS_PER_PAIR : Int
  PAIR_OFFSET : Int
  VERTICAL_GAIN : Q
  VERTICAL_OFFSET : Q
  MAX_VALUE : Q
  MIN_VALUE : Q
  NOMINAL_BITS : Int
  NOM_SUBARRAY_COUNT : Int
  HORIZ_INTERVAL : Q
  HORIZ_OFFSET : Q
  PIXEL_OFFSET : Q
  VERTUNIT : String
  HORUNIT : String
  HORIZ_UNCERTAINTY : Q
  TRIGGER_TIME_SECONDS : Q
  TRIGGER_TIME_MINUTES : Int
  TRIGGER_TIME_HOURS : Int
  TRIGGER_TIME_DAYS : Int
  TRIGGER_TIME_MONTHS : Int
  TRIGGER_TIME_YEAR : Int
  TRIGGER_TIME_UNUSED : Int
  ACQ_DURATION : Q
  RECORD_TYPE_INDEX : Int
  RECORD_TYPE : String
  PROCESSING_DONE_INDEX : Int
  PROCESSING_DONE : String
  RESERVED5 : Int
  RIS_SWEEPS : Int
  TIMEBASE_INDEX : Int
  TIMEBASE : String
  VERT_COUPLING_INDEX : Int
  VERT_COUPLING : String
  PROBE_ATT : Q
  FIXED_VERT_GAIN_INDEX : Int
  FIXED_VERT_GAIN : String
  BANDWIDTH_LIMIT_INDEX : Int
  BANDWIDTH_LIMIT : String
  VERTICAL_VERNIER : Q
  ACQ_VERT_OFFSET : Q
  WAVE_SOURCE_INDEX : Int
  WAVE_SOURCE : String
  FILE_SIZE : Nat
  deriving DecidableEq, Inhabited

/-- Sequential decode of the fixed-layout descriptor fields (lines 164-245).
Every field of the LECROY_2_3 descriptor has a fixed width, so each
sequential read sits at a fixed displacement from the header start k
(annotated below); the reads cover exactly the region [k+16, k+346), and a
file too short for it makes one of the source reads fail, modelled by a
single length test up front.  The COMM_ORDER field (read earlier, lines
158-162) is passed in along with the already-computed byte order, file size
and descriptor name. -/
def decodeFieldsCore (d : List Nat) (k : Nat) (little : Bool) (coIdx : Int)
    (coLbl : String) (fs : Nat) (dn : String) : Except DErr (Header × Nat) :=
  if k + 346 ≤ d.length then
    let sl := fun (o n : Nat) => (d.drop (k + o)).take n
    let g16 := fun (o : Nat) => toSigned 2 (ordVal little (sl o 2))
    let g32 := fun (o : Nat) => toSigned 4 (ordVal little (sl o 4))
    let g8 := fun (o : Nat) => toSigned 1 (ordVal little (sl o 1))
    let f32 := fun (o : Nat) => decodeF32 (ordVal little (sl o 4))
    let f64 := fun (o : Nat) => decodeF64 (ordVal little (sl o 8))
    match utf8? (rstripX (sl 16 16)) with
    | none => .error .encodingError
    | some tn =>
      if tn ≠ "LECROY_2_3" then .error .unsupportedTemplate
      else
        match pyIndex commTypeTbl (g16 32) with
        | none => .error .enumOutOfRange
        | some ct =>
          match utf8? (rstrip0 (sl 76 16)) with
          | none => .error .encodingError
          | some inm =>
            match utf8? (rstrip0 (sl 96 16)) with
            | none => .error .encodingError
            | some tlb =>
              match utf8? (rstripX (sl 196 48)) with
              | none => .error .encodingError
              | some vu =>
                match utf8? (rstripX (sl 244 48)) with
                | none => .error .encodingError
                | some hu =>
                  match pyIndex recordTypeTbl (g16 316) with
                  | none => .error .enumOutOfRange
                  | some rt =>
                    match pyIndex processingTbl (g16 318) with
                    | none => .error .enumOutOfRange
                    | some pd =>
                      let tbIdx := g16 324
                      let divisionsOpt : Option (List Q) :=
                        if tbIdx = 100 then none else some divisionsTbl
                      let tb :=
                        if tbIdx = 100 then "EXTERNAL"
                        else float2eng (tbValue tbIdx) ++ hu ++ "/div"
                      match pyIndex vertCouplingTbl (g16 326) with
                      | none => .error .enumOutOfRange
                      | some vc =>
                        match divisionsOpt with
                        | none => .error .unboundName
                        | some _divs =>
                          let fvgIdx := g16 332
                          let fvg := float2eng (fvgValue fvgIdx) ++ vu ++ "/div"
                          match pyIndex bandwidthTbl (g16 334) with
                          | none => .error .enumOutOfRange
                          | some bw =>
                            .ok
                              ({ DESCRIPTOR_NAME := dn
                                 TEMPLATE_NAME := tn
                                 COMM_TYPE_INDEX := g16 32
                                 COMM_TYPE := ct
                                 COMM_ORDER_INDEX := coIdx
                                 COMM_ORDER := coLbl
                                 WAVE_DESCRIPTOR := g32 36
                                 USER_TEXT := g32 40
                                 RES_DESC1 := g32 44
                                 TRIGTIME_ARRAY := g32 48
                                 RIS_TIME_ARRAY := g32 52
                                 RES_ARRAY1 := g32 56
                                 WAVE_ARRAY_1 := g32 60
                                 WAVE_ARRAY_2 := g32 64
                                 RES_ARRAY2 := g32 68
                                 RES_ARRAY3 := g32 72
                                 INSTRUMENT_NAME := inm
                                 INSTRUMENT_NUMBER := g32 92
                                 TRACE_LABEL := tlb
                                 RESERVED1 := g16 112
                                 RESERVED2 := g16 114
                                 WAVE_ARRAY_COUNT := g32 116
                                 PNTS_PER_SCREEN := g32 120
                                 FIRST_VALID_PNT := g32 124
                                 LAST_VALID_PNT := g32 128
                                 FIRST_POINT := g32 132
                                 SPARSING_FACTOR := g32 136
                                 SEGMENT_INDEX := g32 140
                                 SUBARRAY_COUNT := g32 144
                                 SWEEPS_PER_ACQ := g32 148
                                 POINTS_PER_PAIR := g16 152
                                 PAIR_OFFSET := g16 154
                                 VERTICAL_GAIN := f32 156
                                 VERTICAL_OFFSET := f32 160
                                 MAX_VALUE := f32 164
                                 MIN_VALUE := f32 168
                                 NOMINAL_BITS := g16 172
                                 NOM_SUBARRAY_COUNT := g16 174
                                 HORIZ_INTERVAL := f32 176
                                 HORIZ_OFFSET := f64 180
                                 PIXEL_OFFSET := f64 188
                                 VERTUNIT := vu
                                 HORUNIT := hu
                                 HORIZ_UNCERTAINTY := f32 292
                                 TRIGGER_TIME_SECONDS := f64 296
                                 TRIGGER_TIME_MINUTES := g8 304
                                 TRIGGER_TIME_HOURS := g8 305
                                 TRIGGER_TIME_DAYS := g8 306
                                 TRIGGER_TIME_MONTHS := g8 307
                                 TRIGGER_TIME_YEAR := g16 308
                                 TRIGGER_TIME_UNUSED := g16 310
                                 ACQ_DURATION := f32 312
                                 RECORD_TYPE_INDEX := g16 316
                                 RECORD_TYPE := rt
                                 PROCESSING_DONE_INDEX := g16 318
                                 PROCESSING_DONE := pd
                                 RESERVED5 := g16 320
                                 RIS_SWEEPS := g16 322
                                 TIMEBASE_INDEX := tbIdx
                                 TIMEBASE := tb
                                 VERT_COUPLING_INDEX := g16 326
                                 VERT_COUPLING := vc
                                 PROBE_ATT := f32 328
                                 FIXED_VERT_GAIN_INDEX := fvgIdx
                                 FIXED_VERT_GAIN := fvg
                                 BANDWIDTH_LIMIT_INDEX := g16 334
                                 BANDWIDTH_LIMIT := bw
                                 VERTICAL_VERNIER := f32 336
                                 ACQ_VERT_OFFSET := f32 340
                                 WAVE_SOURCE_INDEX := g16 344
                                 WAVE_SOURCE := "C" ++ toString (g16 344 + 1)
                                 FILE_SIZE := fs }, k + 346)
  else .error .truncatedInput

/-- The descriptor decode followed by the sanity check of lines 246-250:
coffset = tell() - startOffset must equal the declared WAVE_DESCRIPTOR. -/
def decodeFields (d : List Nat) (k : Nat) (little : Bool) (coIdx : Int)
    (coLbl : String) (fs : Nat) (dn : String) : Except DErr (Header × Nat) :=
  match decodeFieldsCore d k little coIdx coLbl fs dn with
  | .error e => .error e
  | .ok (h, pos) =>
    if ((pos - k : Nat) : Int) ≠ h.WAVE_DESCRIPTOR then .error .headerLengthMismatch
    else .ok (h, pos)

/-- A numpy result array: one- or two-dimensional. -/
inductive NArr
  | one (v : List Q)
  | two (v : List (List Q))
  deriving DecidableEq, Repr, Inhabited

/-- The three arrays built by the waveform-reading part (lines 323-363). -/
structure WaveOut where
  x : NArr
  y1 : NArr
  y2 : NArr
  deriving DecidableEq, Repr, Inhabited

def rowOf (n : Nat) (f : Nat → Q) : List Q := (List.range n).map f

/-- One loop iteration of line 341: the slice assignment x[i:] = row
overwrites every row of the matrix from index i on (and leaves the rows
before i unchanged). -/
def segWrite : List (List Q) → Nat → List Q → List (List Q)
  | [], _, _ => []
  | _ :: rs, 0, row => row :: segWrite rs 0 row
  | r :: rs, i + 1, row => r :: segWrite rs i row

/-- The 2-D time array of lines 337-341: start from np.zeros((SC, n)) and
perform the x[i:] slice assignments for i = 0 .. SC-1 in order. -/
def segTimeArr (SC n : Nat) (g : Nat → Nat → Q) : List (List Q) :=
  (List.range SC).foldl (fun m i => segWrite m i (rowOf n (g i)))
    (List.replicate SC (List.replicate n 0))

/-- np.fromfile interpretation of a byte block as consecutive w-byte signed
integers: item i occupies bytes [i*w, (i+1)*w). -/
def intsOf (little : Bool) (w : Nat) (bs : List Nat) : List Int :=
  (List.range (bs.length / w)).map fun i =>
    toSigned w (ordVal little ((bs.drop (i * w)).take w))

/-- numpy reshape(rows, cols) of a flat list of length rows*cols: row i is
the slice [i*cols, (i+1)*cols). -/
def reshape2 {α : Type} (rows cols : Nat) (l : List α) : List (List α) :=
  (List.range rows).map fun i => (l.drop (i * cols)).take cols

/-- Per-sample scaling raw * VERTICAL_GAIN - VERTICAL_OFFSET applied by
numpy broadcasting in lines 344/346/351-359. -/
def scaleSamp (h : Header) (v : Int) : Q :=
  (v : Q) * h.VERTICAL_GAIN - h.VERTICAL_OFFSET

/-- Sample width in bytes, governed by the COMM_TYPE_INDEX==0 tests of lines
343/350: i1 for the byte type, i2 for the word type. -/
def sampWidth (h : Header) : Nat := if h.COMM_TYPE_INDEX = 0 then 1 else 2

/-- TRIGGER_TIME of the i-th TRIGTIME record: first float64 of the 16-byte
record at displacement 16*i from the start of the TRIGTIME array. -/
def trigTimeAt (little : Bool) (d : List Nat) (p : Nat) (i : Nat) : Q :=
  decodeF64 (ordVal little ((d.drop (p + 16 * i)).take 8))

/-- TRIGGER_OFFSET of the i-th TRIGTIME record: second float64 of the
record. -/
def trigOffsetAt (little : Bool) (d : List Nat) (p : Nat) (i : Nat) : Q :=
  decodeF64 (ordVal little ((d.drop (p + 16 * i + 8)).take 8))

/-- The waveform-reading part (lines 323-363), entered at position p (just
after the user text).  An error carries the file position at the raise, so
reads performed before a failure stay visible in the result. -/
def readWave (h : Header) (little : Bool) (d : List Nat) (p : Nat) :
    Except (DErr × Nat) (WaveOut × Nat) :=
  if 1 < h.SUBARRAY_COUNT then
    if h.WAVE_ARRAY_COUNT.emod h.SUBARRAY_COUNT ≠ 0 then
      .error (.unevenSegmentSplit, p)
    else
      let SC := h.SUBARRAY_COUNT.toNat
      let npts := h.WAVE_ARRAY_COUNT.ediv h.SUBARRAY_COUNT
      if p + SC * 16 ≤ d.length then
        let p1 := p + SC * 16
        if npts < 0 then .error (.negativeDim, p1)
        else
          let n := npts.toNat
          let x := segTimeArr SC n fun i j =>
            (j : Q) * h.HORIZ_INTERVAL +
              (trigTimeAt little d p i + trigOffsetAt little d p i)
          let w := sampWidth h
          if p1 + h.WAVE_ARRAY_COUNT.toNat * w ≤ d.length then
            let raw := intsOf little w ((d.drop p1).take (h.WAVE_ARRAY_COUNT.toNat * w))
            let y1 := reshape2 SC n (raw.map (scaleSamp h))
            .ok (⟨.two x, .two y1, .one []⟩, p1 + h.WAVE_ARRAY_COUNT.toNat * w)
          else .error (.truncatedInput, p1)
      else .error (.truncatedInput, p)
  else
    let w := sampWidth h
    let avail1 := (d.length - p) / w
    let c1 := if h.WAVE_ARRAY_COUNT < 0 then avail1 else min h.WAVE_ARRAY_COUNT.toNat avail1
    let y1 := (intsOf little w ((d.drop p).take (c1 * w))).map (scaleSamp h)
    let p1 := p + c1 * w
    let yp2 :=
      if 0 < h.WAVE_ARRAY_2 then
        let avail2 := (d.length - p1) / w
        let c2 := if h.WAVE_ARRAY_COUNT < 0 then avail2 else min h.WAVE_ARRAY_COUNT.toNat avail2
        (((intsOf little w ((d.drop p1).take (c2 * w))).map (scaleSamp h) : List Q),
          p1 + c2 * w)
      else (([] : List Q), p1)
    let x := (List.range h.WAVE_ARRAY_COUNT.toNat).map fun j =>
      (j : Q) * h.HORIZ_INTERVAL + h.HORIZ_OFFSET
    .ok (⟨.one x, .one y1, .one yp2.1⟩, yp2.2)

/-- The full return value of ReadBinaryTrace: (WAVEDESC, TEXT, x, y1, y2). -/
structure DecOut where
  hdr : Header
  text : List Nat
  x : NArr
  y1 : NArr
  y2 : NArr
  deriving DecidableEq, Inhabited

/-- The ASCII token WAVEDESC searched for in the initial window. -/
def wavedescTok : List Nat := [87, 65, 86, 69, 68, 69, 83, 67]

/-- tok is an initial segment of l. -/
def startsWith : List Nat → List Nat → Bool
  | [], _ => true
  | _ :: _, [] => false
  | a :: as, b :: bs => a == b && startsWith as bs

/-- bytes.find of a token: offset of the first occurrence, none if absent. -/
def findSub (tok : List Nat) : List Nat → Option Nat
  | [] => if startsWith tok [] then some 0 else none
  | b :: rest =>
    if startsWith tok (b :: rest) then some 0
    else (findSub tok rest).map (· + 1)

/-- Embedding of ReadBinaryTrace (lecroy.py, lines 43-364) on the byte
contents of the file. -/
def decode (d : List Nat) : Except DErr DecOut :=
  let str2 := d.take 32
  match findSub wavedescTok str2 with
  | none => .error .headerNotFound
  | some k =>
    match utf8? (rstripX ((str2.drop k).take 16)) with
    | none => .error .encodingError
    | some dn =>
      -- fileSize = int.from_bytes(str2[4:k], "little") + k (line 154);
      -- int.from_bytes never raises ValueError, so the except branch of
      -- lines 155-156 is dead and this value is always the one stored.
      let fs := leVal ((str2.drop 4).take (k - 4)) + k
      if k + 34 + 2 ≤ d.length then
        let coIdx := toSigned 2 (leVal ((d.drop (k + 34)).take 2))
        match pyIndex commOrderTbl coIdx with
        | none => .error .enumOutOfRange
        | some coLbl =>
          let little := coLbl == "LOFIRST"
          match decodeFields d k little coIdx coLbl fs dn with
          | .error e => .error e
          | .ok (h, pos) =>
            let tLen := if 0 < h.USER_TEXT then h.USER_TEXT.toNat else 0
            let text := (d.drop pos).take tLen
            let p2 := min (pos + tLen) d.length
            match readWave h little d p2 with
            | .error (e, _) => .error e
            | .ok (w, _) => .ok ⟨h, text, w.x, w.y1, w.y2⟩
      else .error .truncatedInput

/-! Helper lemmas about the list-level building blocks. -/

theorem segWrite_length (m : List (List Q)) (i : Nat) (row : List Q) :
    (segWrite m i row).length = m.length := by
  induction m generalizing i with
  | nil => rfl
  | cons r rs ih =>
    cases i with
    | zero => simpa [segWrite] using ih 0
    | succ i => simpa [segWrite] using ih i

theorem segWrite_getD (m : List (List Q)) (i : Nat) (row : List Q) (j : Nat)
    (hj : j < m.length) :
    (segWrite m i row).getD j [] = if i ≤ j then row else m.getD j [] := by
  induction m generalizing i j with
  | nil => simp at hj
  | cons r rs ih =>
    cases i with
    | zero =>
      cases j with
      | zero => simp [segWrite]
      | succ j =>
        have := ih 0 j (by simpa using Nat.lt_of_succ_lt_succ hj)
        simpa [segWrite] using this
    | succ i =>
      cases j with
      | zero => simp [segWrite]
      | succ j =>
        have hrec := ih i j (by simpa using Nat.lt_of_succ_lt_succ hj)
        simp only [segWrite, List.getD_cons_succ]
        rw [hrec]
        by_cases hc : i ≤ j <;> simp [hc, Nat.succ_le_succ_iff]

theorem segFold_length (g : Nat → List Q) (L : List Nat) (m : List (List Q)) :
    (L.foldl (fun acc i => segWrite acc i (g i)) m).length = m.length := by
  induction L generalizing m with
  | nil => rfl
  | cons a L ih => rw [List.foldl_cons, ih, segWrite_length]

theorem segFold_getD (g : Nat → List Q) :
    ∀ (t : Nat) (m : List (List Q)) (j : Nat), j < m.length →
      ((List.range t).foldl (fun acc i => segWrite acc i (g i)) m).getD j [] =
        if t = 0 then m.getD j [] else g (min j (t - 1)) := by
  intro t
  induction t with
  | zero => intro m j _; simp
  | succ t ih =>
    intro m j hj
    rw [List.range_succ, List.foldl_append, List.foldl_cons, List.foldl_nil]
    rw [segWrite_getD _ _ _ _ (by rw [segFold_length]; exact hj)]
    by_cases hle : t ≤ j
    · rw [if_pos hle]
      have h3 : min j t = t := by omega
      simp [h3]
    · rw [if_neg hle, ih m j hj]
      have ht : ¬ t = 0 := by omega
      have h3 : min j (t - 1) = j := by omega
      have h4 : min j t = j := by omega
      simp [ht, h3, h4]

/-- The net effect of the x[i:] assignment loop: the final row j carries the
values of iteration j (the later iterations i > j do not touch row j, and
iteration j overwrites whatever the earlier ones put there). -/
theorem segTimeArr_getD (SC n : Nat) (g : Nat → Nat → Q) (j : Nat) (hj : j < SC) :
    (segTimeArr SC n g).getD j [] = rowOf n (g j) := by
  unfold segTimeArr
  rw [segFold_getD (fun i => rowOf n (g i)) SC _ j (by simp [hj])]
  have hSC : ¬ SC = 0 := by omega
  have : min j (SC - 1) = j := by omega
  simp [hSC, this]

theorem segTimeArr_length (SC n : Nat) (g : Nat → Nat → Q) :
    (segTimeArr SC n g).length = SC := by
  unfold segTimeArr
  rw [segFold_length]
  simp

theorem reshape2_length {α : Type} (rows cols : Nat) (l : List α) :
    (reshape2 rows cols l).length = rows := by
  simp [reshape2]

theorem reshape2_getD {α : Type} (rows cols : Nat) (l : List α) (i : Nat)
    (hi : i < rows) :
    (reshape2 rows cols l).getD i [] = (l.drop (i * cols)).take cols := by
  simp [reshape2, List.getD_eq_getElem?_getD, List.getElem?_map, List.getElem?_range, hi]

theorem intsOf_length (little : Bool) (w : Nat) (bs : List Nat) :
    (intsOf little w bs).length = bs.length / w := by
  simp [intsOf]

/-- Inversion of Python tuple indexing: a successful lookup means the index
lies in [-len, len), and the label is the entry at index i mod len (the
nonnegative remainder, which matches Python negative-index wrap-around). -/
theorem pyIndex_eq_some {tbl : List String} {i : Int} {s : String}
    (h : pyIndex tbl i = some s) :
    -(tbl.length : Int) ≤ i ∧ i < (tbl.length : Int) ∧
      s = tbl.getD ((i % (tbl.length : Int)).toNat) "" := by
  simp only [pyIndex] at h
  by_cases hi : i < 0
  · rw [if_pos hi] at h
    by_cases hg : 0 ≤ i + (tbl.length : Int) ∧ i + (tbl.length : Int) < (tbl.length : Int)
    · rw [if_pos hg] at h
      have hs : s = tbl.getD (i + (tbl.length : Int)).toNat "" := (Option.some.inj h).symm
      have h1 : (i + (tbl.length : Int) * 1) % (tbl.length : Int) = i % (tbl.length : Int) :=
        Int.add_mul_emod_self_left i (tbl.length : Int) 1
      have h2 : (i + (tbl.length : Int)) % (tbl.length : Int) = i + (tbl.length : Int) :=
        Int.emod_eq_of_lt (by omega) (by omega)
      have hmod : i % (tbl.length : Int) = i + (tbl.length : Int) := by
        rw [← h2, ← h1, Int.mul_one]
      refine ⟨by omega, by omega, ?_⟩
      rw [hmod]
      exact hs
    · rw [if_neg hg] at h; cases h
  · rw [if_neg hi] at h
    by_cases hg : 0 ≤ i ∧ i < (tbl.length : Int)
    · rw [if_pos hg] at h
      have hs : s = tbl.getD i.toNat "" := (Option.some.inj h).symm
      have hmod : i % (tbl.length : Int) = i :=
        Int.emod_eq_of_lt (by omega) (by omega)
      refine ⟨by omega, by omega, ?_⟩
      rw [hmod]
      exact hs
    · rw [if_neg hg] at h; cases h

theorem sampWidth_pos (h : Header) : 0 < sampWidth h := by
  unfold sampWidth
  split <;> omega

/-- The time row the specification prescribes for segment i: entry j equals
j * HORIZ_INTERVAL + (trigger_time i + trigger_offset i), with the i-th
trigger pair read at displacement 16*i from position p (just after the user
text). -/
def specSegRow (h : Header) (little : Bool) (d : List Nat) (p : Nat) (n i : Nat) :
    List Q :=
  rowOf n fun j =>
    (j : Q) * h.HORIZ_INTERVAL + (trigTimeAt little d p i + trigOffsetAt little d p i)

/-- The scaled sample sequence the specification prescribes: the count
consecutive signed samples of width w starting at position p, each mapped to
raw * VERTICAL_GAIN - VERTICAL_OFFSET. -/
def specSamples (h : Header) (little : Bool) (d : List Nat) (p count w : Nat) :
    List Q :=
  (intsOf little w ((d.drop p).take (count * w))).map (scaleSamp h)


/-- Claim C7: with more than one segment and a total sample count not evenly
divisible by the segment count, the waveform reader fails with
unevenSegmentSplit at once, the byte-source position unchanged from the
point just after the user text (no trigger-pair or payload byte is read). -/
theorem c7_uneven_split (h : Header) (little : Bool) (d : List Nat) (p : Nat)
    (hseg : 1 < h.SUBARRAY_COUNT)
    (hdiv : h.WAVE_ARRAY_COUNT.emod h.SUBARRAY_COUNT ≠ 0) :
    readWave h little d p = .error (.unevenSegmentSplit, p) := by
  unfold readWave
  rw [if_pos hseg, if_pos hdiv]

/-- Claim C1 (amended reading none needed): for every segmented decode
(SUBARRAY_COUNT > 1) that returns arrays, the time array is two-dimensional
with SUBARRAY_COUNT rows of WAVE_ARRAY_COUNT / SUBARRAY_COUNT entries, row i
column j holding j * HORIZ_INTERVAL + (trigger_time i + trigger_offset i)
where the trigger pairs are the float64 pairs read right after the user
text; the sole amplitude channel is the payload samples (signed 8-bit for
communication type byte, 16-bit for word) reshaped to the same shape and
scaled as raw * VERTICAL_GAIN - VERTICAL_OFFSET; the secondary channel is
empty. -/
theorem c1_segmented_arrays (h : Header) (little : Bool) (d : List Nat) (p : Nat)
    (out : WaveOut) (pEnd : Nat)
    (hok : readWave h little d p = .ok (out, pEnd))
    (hseg : 1 < h.SUBARRAY_COUNT) :
    ∃ (M Y : List (List Q)),
      out.x = .two M ∧
      out.y1 = .two Y ∧
      out.y2 = .one [] ∧
      M.length = h.SUBARRAY_COUNT.toNat ∧
      Y.length = h.SUBARRAY_COUNT.toNat ∧
      (∀ i, i < h.SUBARRAY_COUNT.toNat →
        M.getD i [] =
          specSegRow h little d p (h.WAVE_ARRAY_COUNT.ediv h.SUBARRAY_COUNT).toNat i) ∧
      Y = reshape2 h.SUBARRAY_COUNT.toNat (h.WAVE_ARRAY_COUNT.ediv h.SUBARRAY_COUNT).toNat
        (specSamples h little d (p + h.SUBARRAY_COUNT.toNat * 16)
          h.WAVE_ARRAY_COUNT.toNat (sampWidth h)) ∧
      (∀ i, i < h.SUBARRAY_COUNT.toNat →
        (Y.getD i []).length = (h.WAVE_ARRAY_COUNT.ediv h.SUBARRAY_COUNT).toNat) := by
  simp only [readWave] at hok
  rw [if_pos hseg] at hok
  split at hok
  · exact absurd hok (by simp)
  · rename_i hdiv
    split at hok
    · rename_i htrig
      split at hok
      · exact absurd hok (by simp)
      · rename_i hnneg
        split at hok
        · rename_i havail
          injection hok with h1
          injection h1 with hOut hP
          subst hOut
          subst hP
          have hw : 0 < sampWidth h := sampWidth_pos h
          have hmod0 : h.WAVE_ARRAY_COUNT.emod h.SUBARRAY_COUNT = 0 := of_not_not hdiv
          have hprod : h.WAVE_ARRAY_COUNT =
              h.SUBARRAY_COUNT * (h.WAVE_ARRAY_COUNT.ediv h.SUBARRAY_COUNT) := by
            have heq := Int.ediv_add_emod h.WAVE_ARRAY_COUNT h.SUBARRAY_COUNT
            rw [show h.WAVE_ARRAY_COUNT % h.SUBARRAY_COUNT =
                h.WAVE_ARRAY_COUNT.emod h.SUBARRAY_COUNT from rfl, hmod0, add_zero] at heq
            exact heq.symm
          have hA : ((h.SUBARRAY_COUNT.toNat : Int)) = h.SUBARRAY_COUNT :=
            Int.toNat_of_nonneg (by omega)
          have hB : ((h.WAVE_ARRAY_COUNT.ediv h.SUBARRAY_COUNT).toNat : Int) =
              h.WAVE_ARRAY_COUNT.ediv h.SUBARRAY_COUNT :=
            Int.toNat_of_nonneg (by omega)
          have hABn : h.WAVE_ARRAY_COUNT.toNat =
              h.SUBARRAY_COUNT.toNat * (h.WAVE_ARRAY_COUNT.ediv h.SUBARRAY_COUNT).toNat := by
            have h2 : h.WAVE_ARRAY_COUNT =
                ((h.SUBARRAY_COUNT.toNat * (h.WAVE_ARRAY_COUNT.ediv h.SUBARRAY_COUNT).toNat
                  : Nat) : Int) := by
              push_cast
              rw [hA, hB]
              exact hprod
            have h3 := congrArg Int.toNat h2
            rw [Int.toNat_natCast] at h3
            exact h3
          have hlen0 : (List.map (scaleSamp h) (intsOf little (sampWidth h)
              (List.take (h.WAVE_ARRAY_COUNT.toNat * sampWidth h)
                (List.drop (p + h.SUBARRAY_COUNT.toNat * 16) d)))).length =
              h.WAVE_ARRAY_COUNT.toNat := by
            simp only [List.length_map, intsOf_length, List.length_take, List.length_drop]
            have hle : h.WAVE_ARRAY_COUNT.toNat * sampWidth h ≤
                d.length - (p + h.SUBARRAY_COUNT.toNat * 16) :=
              Nat.le_sub_of_add_le (by rw [Nat.add_comm]; exact havail)
            rw [Nat.min_eq_left hle]
            exact Nat.mul_div_cancel _ hw
          refine ⟨_, _, rfl, rfl, rfl, segTimeArr_length _ _ _, reshape2_length _ _ _,
            ?_, rfl, ?_⟩
          · intro i hi
            unfold specSegRow
            exact segTimeArr_getD h.SUBARRAY_COUNT.toNat
              (h.WAVE_ARRAY_COUNT.ediv h.SUBARRAY_COUNT).toNat
              (fun i j => (j : Q) * h.HORIZ_INTERVAL +
                (trigTimeAt little d p i + trigOffsetAt little d p i)) i hi
          · intro i hi
            rw [reshape2_getD _ _ _ i hi]
            simp only [List.length_take, List.length_drop]
            rw [hlen0, hABn]
            have hstep : (i + 1) * (h.WAVE_ARRAY_COUNT.ediv h.SUBARRAY_COUNT).toNat ≤
                h.SUBARRAY_COUNT.toNat * (h.WAVE_ARRAY_COUNT.ediv h.SUBARRAY_COUNT).toNat :=
              Nat.mul_le_mul_right _ (by omega)
            have hexp : (i + 1) * (h.WAVE_ARRAY_COUNT.ediv h.SUBARRAY_COUNT).toNat =
                (h.WAVE_ARRAY_COUNT.ediv h.SUBARRAY_COUNT).toNat +
                i * (h.WAVE_ARRAY_COUNT.ediv h.SUBARRAY_COUNT).toNat := by ring
            rw [hexp] at hstep
            exact Nat.min_eq_left (Nat.le_sub_of_add_le hstep)
        · exact absurd hok (by simp)
    · exact absurd hok (by simp)

instance {ε α : Type} [DecidableEq ε] [DecidableEq α] : DecidableEq (Except ε α) :=
  fun x y =>
    match x, y with
    | .ok a, .ok b =>
      if h : a = b then isTrue (by rw [h])
      else isFalse fun he => h (by cases he; rfl)
    | .error e, .error f =>
      if h : e = f then isTrue (by rw [h])
      else isFalse fun he => h (by cases he; rfl)
    | .ok _, .error _ => isFalse fun he => by cases he
    | .error _, .ok _ => isFalse fun he => by cases he

/-- Inversion of a successful descriptor-field decode: the end position, the
pass-through fields, and what each decoded string, enum and derived label of
the returned header is in terms of the raw bytes. -/
theorem core_ok (d : List Nat) (k : Nat) (little : Bool) (ci : Int) (cl : String)
    (fs : Nat) (dn : String) (h : Header) (pos : Nat)
    (H : decodeFieldsCore d k little ci cl fs dn = .ok (h, pos)) :
    pos = k + 346 ∧
    h.DESCRIPTOR_NAME = dn ∧
    h.FILE_SIZE = fs ∧
    h.COMM_ORDER_INDEX = ci ∧
    h.COMM_ORDER = cl ∧
    utf8? (rstripX ((d.drop (k + 16)).take 16)) = some h.TEMPLATE_NAME ∧
    pyIndex commTypeTbl h.COMM_TYPE_INDEX = some h.COMM_TYPE ∧
    utf8? (rstrip0 ((d.drop (k + 76)).take 16)) = some h.INSTRUMENT_NAME ∧
    utf8? (rstrip0 ((d.drop (k + 96)).take 16)) = some h.TRACE_LABEL ∧
    utf8? (rstripX ((d.drop (k + 196)).take 48)) = some h.VERTUNIT ∧
    utf8? (rstripX ((d.drop (k + 244)).take 48)) = some h.HORUNIT ∧
    pyIndex recordTypeTbl h.RECORD_TYPE_INDEX = some h.RECORD_TYPE ∧
    pyIndex processingTbl h.PROCESSING_DONE_INDEX = some h.PROCESSING_DONE ∧
    pyIndex vertCouplingTbl h.VERT_COUPLING_INDEX = some h.VERT_COUPLING ∧
    pyIndex bandwidthTbl h.BANDWIDTH_LIMIT_INDEX = some h.BANDWIDTH_LIMIT ∧
    h.TIMEBASE_INDEX ≠ 100 ∧
    h.TIMEBASE = float2eng (tbValue h.TIMEBASE_INDEX) ++ h.HORUNIT ++ "/div" ∧
    h.FIXED_VERT_GAIN = float2eng (fvgValue h.FIXED_VERT_GAIN_INDEX) ++ h.VERTUNIT ++ "/div" := by
  simp only [decodeFieldsCore] at H
  split at H
  case isFalse => exact absurd H (by simp)
  case isTrue =>
    split at H
    · exact absurd H (by simp)
    · rename_i tn htn
      split at H
      · exact absurd H (by simp)
      · split at H
        · exact absurd H (by simp)
        · rename_i ct hct
          split at H
          · exact absurd H (by simp)
          · rename_i inm hinm
            split at H
            · exact absurd H (by simp)
            · rename_i tlb htl
              split at H
              · exact absurd H (by simp)
              · rename_i vu hvu
                split at H
                · exact absurd H (by simp)
                · rename_i hu hhu
                  split at H
                  · exact absurd H (by simp)
                  · rename_i rt hrt
                    split at H
                    · exact absurd H (by simp)
                    · rename_i pd hpd
                      split at H
                      · exact absurd H (by simp)
                      · rename_i vc hvc
                        split at H
                        · exact absurd H (by simp)
                        · rename_i divs hdivs
                          split at H
                          · exact absurd H (by simp)
                          · rename_i bw hbw
                            have htb100 :
                                toSigned 2 (ordVal little ((d.drop (k + 324)).take 2)) ≠ 100 := by
                              intro hc
                              rw [if_pos hc] at hdivs
                              cases hdivs
                            injection H with H1
                            injection H1 with Hh Hp
                            subst Hh
                            subst Hp
                            exact ⟨rfl, rfl, rfl, rfl, rfl, htn, hct, hinm, htl, hvu, hhu,
                              hrt, hpd, hvc, hbw, htb100, if_neg htb100, rfl⟩


/-- A successful checked decode means the field sequence succeeded and the
consumed byte count agrees with the declared WAVE_DESCRIPTOR. -/
theorem fields_ok (d : List Nat) (k : Nat) (little : Bool) (ci : Int) (cl : String)
    (fs : Nat) (dn : String) (h : Header) (pos : Nat)
    (H : decodeFields d k little ci cl fs dn = .ok (h, pos)) :
    decodeFieldsCore d k little ci cl fs dn = .ok (h, pos) ∧
    ((pos - k : Nat) : Int) = h.WAVE_DESCRIPTOR := by
  simp only [decodeFields] at H
  split at H
  · exact absurd H (by simp)
  · rename_i h1 p1 heq
    split at H
    · exact absurd H (by simp)
    · rename_i hwd
      injection H with H1
      injection H1 with Hh Hp
      subst Hh
      subst Hp
      exact ⟨heq, by omega⟩

/-- Inversion of a successful top-level decode: the token offset k, the
descriptor-name read from the 32-byte window, the byte-order resolution and
the successful field decode of the returned header. -/
theorem decode_ok (d : List Nat) (r : DecOut) (H : decode d = .ok r) :
    ∃ k little pos,
      findSub wavedescTok (d.take 32) = some k ∧
      decodeFieldsCore d k little r.hdr.COMM_ORDER_INDEX r.hdr.COMM_ORDER
          (leVal (((d.take 32).drop 4).take (k - 4)) + k) r.hdr.DESCRIPTOR_NAME
        = .ok (r.hdr, pos) ∧
      pyIndex commOrderTbl r.hdr.COMM_ORDER_INDEX = some r.hdr.COMM_ORDER ∧
      utf8? (rstripX (((d.take 32).drop k).take 16)) = some r.hdr.DESCRIPTOR_NAME ∧
      ((pos - k : Nat) : Int) = r.hdr.WAVE_DESCRIPTOR := by
  simp only [decode] at H
  split at H
  · exact absurd H (by simp)
  · rename_i k hk
    split at H
    · exact absurd H (by simp)
    · rename_i dn hdn
      split at H
      · split at H
        · exact absurd H (by simp)
        · rename_i cl hcl
          split at H
          · exact absurd H (by simp)
          · rename_i hh pos heqF
            split at H
            · exact absurd H (by simp)
            · rename_i w pEnd heqW
              injection H with H1
              subst H1
              obtain ⟨hcore, hwd⟩ := fields_ok _ _ _ _ _ _ _ _ _ heqF
              obtain ⟨-, hdn2, -, hci, hcl2, -⟩ := core_ok _ _ _ _ _ _ _ _ _ hcore
              refine ⟨k, (cl == "LOFIRST"), pos, hk, ?_, ?_, ?_, ?_⟩
              · show decodeFieldsCore d k (cl == "LOFIRST") hh.COMM_ORDER_INDEX
                  hh.COMM_ORDER (leVal (((d.take 32).drop 4).take (k - 4)) + k)
                  hh.DESCRIPTOR_NAME = .ok (hh, pos)
                rw [hci, hcl2, hdn2]
                exact hcore
              · show pyIndex commOrderTbl hh.COMM_ORDER_INDEX = some hh.COMM_ORDER
                rw [hci, hcl2]
                exact hcl
              · show utf8? (rstripX (((d.take 32).drop k).take 16)) = some hh.DESCRIPTOR_NAME
                rw [hdn2]
                exact hdn
              · show ((pos - k : Nat) : Int) = hh.WAVE_DESCRIPTOR
                exact hwd
      · exact absurd H (by simp)

theorem specSamples_length (h : Header) (little : Bool) (d : List Nat)
    (p count w : Nat) (hw : 0 < w) (hle : p + count * w ≤ d.length) :
    (specSamples h little d p count w).length = count := by
  simp only [specSamples, List.length_map, intsOf_length, List.length_take,
    List.length_drop]
  rw [Nat.min_eq_left (Nat.le_sub_of_add_le (by rw [Nat.add_comm]; exact hle))]
  exact Nat.mul_div_cancel _ hw

/-- Claim C2: for every single-sweep decode (SUBARRAY_COUNT <= 1) with a
nonnegative declared sample count and a payload long enough for the declared
channels, the time array is one-dimensional with entry j equal to
j * HORIZ_INTERVAL + HORIZ_OFFSET for j in [0, WAVE_ARRAY_COUNT); the
primary channel is the WAVE_ARRAY_COUNT samples at the current position
scaled by raw * VERTICAL_GAIN - VERTICAL_OFFSET; a nonpositive WAVE_ARRAY_2
leaves the secondary channel empty, and a positive WAVE_ARRAY_2 makes it the
same count of same-width samples read immediately after the primary, scaled
by the same rule, with the same element count as the primary. -/
theorem c2_single_sweep (h : Header) (little : Bool) (d : List Nat) (p : Nat)
    (out : WaveOut) (pEnd : Nat)
    (hok : readWave h little d p = .ok (out, pEnd))
    (hsingle : h.SUBARRAY_COUNT ≤ 1)
    (hwac : 0 ≤ h.WAVE_ARRAY_COUNT)
    (hsuff : p + h.WAVE_ARRAY_COUNT.toNat * sampWidth h +
      (if 0 < h.WAVE_ARRAY_2 then h.WAVE_ARRAY_COUNT.toNat * sampWidth h else 0) ≤
        d.length) :
    out.x = .one ((List.range h.WAVE_ARRAY_COUNT.toNat).map fun j =>
      (j : Q) * h.HORIZ_INTERVAL + h.HORIZ_OFFSET) ∧
    out.y1 = .one (specSamples h little d p h.WAVE_ARRAY_COUNT.toNat (sampWidth h)) ∧
    (h.WAVE_ARRAY_2 ≤ 0 → out.y2 = .one []) ∧
    (0 < h.WAVE_ARRAY_2 →
      out.y2 = .one (specSamples h little d (p + h.WAVE_ARRAY_COUNT.toNat * sampWidth h)
        h.WAVE_ARRAY_COUNT.toNat (sampWidth h)) ∧
      (specSamples h little d (p + h.WAVE_ARRAY_COUNT.toNat * sampWidth h)
        h.WAVE_ARRAY_COUNT.toNat (sampWidth h)).length =
      (specSamples h little d p h.WAVE_ARRAY_COUNT.toNat (sampWidth h)).length) := by
  have hw : 0 < sampWidth h := sampWidth_pos h
  have hsuff1 : p + h.WAVE_ARRAY_COUNT.toNat * sampWidth h ≤ d.length :=
    le_trans (Nat.le_add_right _ _) hsuff
  simp only [readWave] at hok
  rw [if_neg (by omega : ¬ (1 : Int) < h.SUBARRAY_COUNT)] at hok
  rw [if_neg (by omega : ¬ h.WAVE_ARRAY_COUNT < 0)] at hok
  have hwge : h.WAVE_ARRAY_COUNT.toNat ≤ (d.length - p) / sampWidth h := by
    rw [Nat.le_div_iff_mul_le hw]
    exact Nat.le_sub_of_add_le (by rw [Nat.add_comm]; exact hsuff1)
  rw [Nat.min_eq_left hwge] at hok
  by_cases hw2 : 0 < h.WAVE_ARRAY_2
  · rw [if_pos hw2] at hok
    rw [if_neg (by omega : ¬ h.WAVE_ARRAY_COUNT < 0)] at hok
    have hsuff2 : (p + h.WAVE_ARRAY_COUNT.toNat * sampWidth h) +
        h.WAVE_ARRAY_COUNT.toNat * sampWidth h ≤ d.length := by
      rw [if_pos hw2] at hsuff
      omega
    have hwge2 : h.WAVE_ARRAY_COUNT.toNat ≤
        (d.length - (p + h.WAVE_ARRAY_COUNT.toNat * sampWidth h)) / sampWidth h := by
      rw [Nat.le_div_iff_mul_le hw]
      exact Nat.le_sub_of_add_le (by rw [Nat.add_comm]; exact hsuff2)
    rw [Nat.min_eq_left hwge2] at hok
    injection hok with h1
    injection h1 with hOut hP
    subst hOut
    refine ⟨rfl, rfl, fun hc => absurd hw2 (by omega), fun _ => ⟨rfl, ?_⟩⟩
    rw [specSamples_length h little d _ _ _ hw hsuff2,
      specSamples_length h little d _ _ _ hw hsuff1]
  · rw [if_neg hw2] at hok
    injection hok with h1
    injection h1 with hOut hP
    subst hOut
    exact ⟨rfl, rfl, fun _ => rfl, fun hc => absurd hc hw2⟩

/-! Concrete byte sources used to instantiate the theorems below. -/

/-- Little-endian encoding of an integer into w bytes (two's complement). -/
def encLE (w : Nat) (v : Int) : List Nat :=
  (List.range w).map fun i => (v.emod (2 ^ (8 * w))).toNat / 256 ^ i % 256

/-- Pad a byte string with NULs to a fixed field width. -/
def padTo (n : Nat) (s : List Nat) : List Nat := s ++ List.replicate (n - s.length) 0

/-- Replace the bytes of d at [o, o + repl.length) by repl. -/
def patch (d : List Nat) (o : Nat) (repl : List Nat) : List Nat :=
  d.take o ++ repl ++ d.drop (o + repl.length)

/-- A complete 346-byte LECROY_2_3 descriptor (little-endian, byte samples,
single sweep, 4 samples, VERTICAL_GAIN 2, VERTICAL_OFFSET 1,
HORIZ_INTERVAL 2, HORIZ_OFFSET 1, VERTUNIT bytes "V0", HORUNIT "s",
USER_TEXT length 4).  Each line is annotated with the displacement of the
field from the header start. -/
def mainHeaderBytes : List Nat :=
  padTo 16 [87, 65, 86, 69, 68, 69, 83, 67] ++            -- +0   "WAVEDESC"
  padTo 16 [76, 69, 67, 82, 79, 89, 95, 50, 95, 51] ++    -- +16  "LECROY_2_3"
  encLE 2 0 ++                                            -- +32  COMM_TYPE byte
  encLE 2 1 ++                                            -- +34  COMM_ORDER LOFIRST
  encLE 4 346 ++                                          -- +36  WAVE_DESCRIPTOR
  encLE 4 4 ++                                            -- +40  USER_TEXT length
  encLE 4 0 ++ encLE 4 0 ++ encLE 4 0 ++ encLE 4 0 ++     -- +44..+60 block sizes
  encLE 4 4 ++                                            -- +60  WAVE_ARRAY_1
  encLE 4 0 ++                                            -- +64  WAVE_ARRAY_2
  encLE 4 0 ++ encLE 4 0 ++                               -- +68, +72 reserved
  padTo 16 [83, 67, 79, 80, 69, 48] ++                    -- +76  "SCOPE0"
  encLE 4 7 ++                                            -- +92  INSTRUMENT_NUMBER
  padTo 16 [76, 48] ++                                    -- +96  "L0"
  encLE 2 0 ++ encLE 2 0 ++                               -- +112, +114 reserved
  encLE 4 4 ++                                            -- +116 WAVE_ARRAY_COUNT
  encLE 4 0 ++ encLE 4 0 ++ encLE 4 0 ++ encLE 4 0 ++     -- +120..+136
  encLE 4 0 ++ encLE 4 0 ++                               -- +136, +140
  encLE 4 1 ++                                            -- +144 SUBARRAY_COUNT
  encLE 4 1 ++                                            -- +148 SWEEPS_PER_ACQ
  encLE 2 0 ++ encLE 2 0 ++                               -- +152, +154
  encLE 4 0x40000000 ++                                   -- +156 VERTICAL_GAIN 2.0
  encLE 4 0x3F800000 ++                                   -- +160 VERTICAL_OFFSET 1.0
  encLE 4 0 ++ encLE 4 0 ++                               -- +164 MAX, +168 MIN
  encLE 2 8 ++ encLE 2 1 ++                               -- +172, +174
  encLE 4 0x40000000 ++                                   -- +176 HORIZ_INTERVAL 2.0
  encLE 8 0x3FF0000000000000 ++                           -- +180 HORIZ_OFFSET 1.0
  encLE 8 0 ++                                            -- +188 PIXEL_OFFSET
  padTo 48 [86, 48] ++                                    -- +196 VERTUNIT "V0"
  padTo 48 [115] ++                                       -- +244 HORUNIT "s"
  encLE 4 0 ++                                            -- +292 HORIZ_UNCERTAINTY
  encLE 8 0 ++                                            -- +296 TRIGGER_TIME seconds
  [0, 0, 0, 0] ++                                         -- +304 min/hour/day/month
  encLE 2 0 ++ encLE 2 0 ++                               -- +308 year, +310 unused
  encLE 4 0 ++                                            -- +312 ACQ_DURATION
  encLE 2 0 ++                                            -- +316 RECORD_TYPE
  encLE 2 0 ++                                            -- +318 PROCESSING_DONE
  encLE 2 0 ++ encLE 2 0 ++                               -- +320, +322
  encLE 2 0 ++                                            -- +324 TIMEBASE
  encLE 2 0 ++                                            -- +326 VERT_COUPLING
  encLE 4 0 ++                                            -- +328 PROBE_ATT
  encLE 2 0 ++                                            -- +332 FIXED_VERT_GAIN
  encLE 2 0 ++                                            -- +334 BANDWIDTH_LIMIT
  encLE 4 0 ++ encLE 4 0 ++                               -- +336, +340
  encLE 2 0                                               -- +344 WAVE_SOURCE

/-- A complete well-formed file: an 8-byte size prefix whose first four
bytes are nonzero, the descriptor, 4 bytes of user text and 4 byte-wide
samples. -/
def mainFile : List Nat :=
  [1, 0, 0, 0, 2, 0, 0, 0] ++ mainHeaderBytes ++ [65, 66, 67, 68] ++ [1, 255, 0, 130]

/-- mainFile with RECORD_TYPE_INDEX set to -1 (a negative enum code). -/
def negIdxFile : List Nat := patch mainFile (8 + 316) [255, 255]

/-- mainFile with TIMEBASE_INDEX set to -1 (a negative timebase code). -/
def tbNegFile : List Nat := patch mainFile (8 + 324) [255, 255]

/-- mainFile with the declared WAVE_DESCRIPTOR set to 347 instead of the 346
bytes the field sequence consumes. -/
def mismFile : List Nat := patch mainFile (8 + 36) (encLE 4 347)

/-- Header projection of a decode result. -/
def hdrOf : Except DErr DecOut → Option Header
  | .ok r => some r.hdr
  | .error _ => none

/-- End position and declared length of a successful field decode. -/
def coreProbe : Except DErr (Header × Nat) → Option (Nat × Int)
  | .ok pr => some (pr.2, pr.1.WAVE_DESCRIPTOR)
  | .error _ => none

/-- The amended resolution rule of Python tuple indexing: the raw code lies
in [-len, len) and the label is the table entry at the nonnegative remainder
of the code modulo the table length (so codes in [-len, -1] silently wrap
around to the end of the table). -/
def pyResolves (tbl : List String) (i : Int) (s : String) : Prop :=
  -(tbl.length : Int) ≤ i ∧ i < (tbl.length : Int) ∧
    s = tbl.getD ((i % (tbl.length : Int)).toNat) ""

instance (tbl : List String) (i : Int) (s : String) : Decidable (pyResolves tbl i s) := by
  unfold pyResolves
  infer_instance

/-- Claim C10: a decode whose timebase code is 100 (the EXTERNAL case) never
returns a result: the FIXED_VERT_GAIN label computation uses the divisions
table that only the non-EXTERNAL branch binds, so every such decode aborts
with an error (UnboundLocalError in the source) before producing output. -/
theorem c10_external_timebase_never_returns (d : List Nat) (r : DecOut)
    (H : decode d = .ok r) : r.hdr.TIMEBASE_INDEX ≠ 100 := by
  obtain ⟨k, little, pos, hk, hcore, -, -, -⟩ := decode_ok d r H
  obtain ⟨-, -, -, -, -, -, -, -, -, -, -, -, -, -, -, htb, -, -⟩ :=
    core_ok _ _ _ _ _ _ _ _ _ hcore
  exact htb

/-- Claim C5 (amended): in every successfully decoded header, TIMEBASE is
the literal EXTERNAL for code 100 (vacuously, since such decodes never
succeed) and otherwise the engineering-formatted value of
divisions[code mod 3] * 10 ^ (int(code / 3) - 12) followed by the horizontal
unit and "/div"; FIXED_VERT_GAIN is the engineering-formatted value of
divisions[code mod 3] * 10 ^ (int(code / 3) - 6) followed by the vertical
unit and "/div".  The exponent uses truncation toward zero (Python
int(code / 3)), not the floor the claim stated, which differs on negative
codes. -/
theorem c5_engineering_labels (d : List Nat) (r : DecOut) (H : decode d = .ok r) :
    r.hdr.TIMEBASE = (if r.hdr.TIMEBASE_INDEX = 100 then "EXTERNAL"
      else float2eng (tbValue r.hdr.TIMEBASE_INDEX) ++ r.hdr.HORUNIT ++ "/div") ∧
    r.hdr.FIXED_VERT_GAIN =
      float2eng (fvgValue r.hdr.FIXED_VERT_GAIN_INDEX) ++ r.hdr.VERTUNIT ++ "/div" := by
  obtain ⟨k, little, pos, hk, hcore, -, -, -⟩ := decode_ok d r H
  obtain ⟨-, -, -, -, -, -, -, -, -, -, -, -, -, -, -, htb100, hTB, hFVG⟩ :=
    core_ok _ _ _ _ _ _ _ _ _ hcore
  exact ⟨by rw [if_neg htb100]; exact hTB, hFVG⟩

/-- Claim C3 (amended): in every successfully decoded header, FILE_SIZE is
the little-endian value of the window bytes from offset 4 up to the match
offset k (not from the start of the window), plus k; it is 0 only when the
token sits at the very start (k = 0). -/
theorem c3_file_size (d : List Nat) (r : DecOut) (H : decode d = .ok r) :
    ∃ k, findSub wavedescTok (d.take 32) = some k ∧
      r.hdr.FILE_SIZE = leVal (((d.take 32).drop 4).take (k - 4)) + k ∧
      (r.hdr.FILE_SIZE = 0 → k = 0) := by
  obtain ⟨k, little, pos, hk, hcore, -, -, -⟩ := decode_ok d r H
  obtain ⟨-, -, hfs, -⟩ := core_ok _ _ _ _ _ _ _ _ _ hcore
  exact ⟨k, hk, hfs, fun h0 => by omega⟩

/-- Claim C4 (amended): every decoded enum field of a successful decode has
its raw code inside [-len, len) and its label resolved by Python indexing
(wrap-around for negative codes); a code at or beyond the table length in
absolute value makes the decode fail (IndexError), but a negative code in
[-len, -1] resolves silently instead of failing. -/
theorem c4_enum_resolution (d : List Nat) (r : DecOut) (H : decode d = .ok r) :
    pyResolves commTypeTbl r.hdr.COMM_TYPE_INDEX r.hdr.COMM_TYPE ∧
    pyResolves commOrderTbl r.hdr.COMM_ORDER_INDEX r.hdr.COMM_ORDER ∧
    pyResolves recordTypeTbl r.hdr.RECORD_TYPE_INDEX r.hdr.RECORD_TYPE ∧
    pyResolves processingTbl r.hdr.PROCESSING_DONE_INDEX r.hdr.PROCESSING_DONE ∧
    pyResolves vertCouplingTbl r.hdr.VERT_COUPLING_INDEX r.hdr.VERT_COUPLING ∧
    pyResolves bandwidthTbl r.hdr.BANDWIDTH_LIMIT_INDEX r.hdr.BANDWIDTH_LIMIT := by
  obtain ⟨k, little, pos, hk, hcore, hco, -, -⟩ := decode_ok d r H
  obtain ⟨-, -, -, -, -, -, hct, -, -, -, -, hrt, hpd, hvc, hbw, -, -, -⟩ :=
    core_ok _ _ _ _ _ _ _ _ _ hcore
  exact ⟨pyIndex_eq_some hct, pyIndex_eq_some hco, pyIndex_eq_some hrt,
    pyIndex_eq_some hpd, pyIndex_eq_some hvc, pyIndex_eq_some hbw⟩

/-- Claim C8 (amended): in every successfully decoded header, the
instrument-name and trace-label fields are the raw 16 bytes with only
trailing NULs removed, decoded as UTF-8; the descriptor-name,
template-name and the two 48-byte unit fields instead strip every trailing
byte in the set NUL, letter x and digit 0, because the source spells the
strip argument b"\0x00". -/
theorem c8_string_trimming (d : List Nat) (r : DecOut) (H : decode d = .ok r) :
    ∃ k, findSub wavedescTok (d.take 32) = some k ∧
      utf8? (rstripX (((d.take 32).drop k).take 16)) = some r.hdr.DESCRIPTOR_NAME ∧
      utf8? (rstripX ((d.drop (k + 16)).take 16)) = some r.hdr.TEMPLATE_NAME ∧
      utf8? (rstrip0 ((d.drop (k + 76)).take 16)) = some r.hdr.INSTRUMENT_NAME ∧
      utf8? (rstrip0 ((d.drop (k + 96)).take 16)) = some r.hdr.TRACE_LABEL ∧
      utf8? (rstripX ((d.drop (k + 196)).take 48)) = some r.hdr.VERTUNIT ∧
      utf8? (rstripX ((d.drop (k + 244)).take 48)) = some r.hdr.HORUNIT := by
  obtain ⟨k, little, pos, hk, hcore, -, hdn, -⟩ := decode_ok d r H
  obtain ⟨-, -, -, -, -, htpl, -, hinm, htl, hvu, hhu, -⟩ :=
    core_ok _ _ _ _ _ _ _ _ _ hcore
  exact ⟨k, hk, hdn, htpl, hinm, htl, hvu, hhu⟩

/-- Claim C6: when the fixed field sequence decodes but the number of header
bytes consumed from the header start differs from the decoded
WAVE_DESCRIPTOR, by any amount in either direction, the checked decode fails
with headerLengthMismatch and returns no result. -/
theorem c6_header_length_mismatch (d : List Nat) (k : Nat) (little : Bool)
    (ci : Int) (cl : String) (fs : Nat) (dn : String) (h : Header) (pos : Nat)
    (Hcore : decodeFieldsCore d k little ci cl fs dn = .ok (h, pos))
    (hne : ((pos - k : Nat) : Int) ≠ h.WAVE_DESCRIPTOR) :
    decodeFields d k little ci cl fs dn = .error .headerLengthMismatch := by
  simp only [decodeFields, Hcore]
  rw [if_pos hne]

/-! Concrete instantiations: every theorem above with a hypothesis is
exercised on one of the byte sources defined earlier, and the claims that
needed amending are refuted as originally worded on the same sources. -/

/-- A header for a two-segment acquisition: 2 segments of 2 byte-wide
samples each, gain 2, offset 1, interval 3. -/
def segHdr : Header :=
  { (default : Header) with
    SUBARRAY_COUNT := 2, WAVE_ARRAY_COUNT := 4, COMM_TYPE_INDEX := 0,
    VERTICAL_GAIN := 2, VERTICAL_OFFSET := 1, HORIZ_INTERVAL := 3 }

/-- Payload for segHdr: trigger pairs (1.0, 0.5) and (2.0, 0.25) as
little-endian float64, then the 4 sample bytes. -/
def segData : List Nat :=
  encLE 8 0x3FF0000000000000 ++ encLE 8 0x3FE0000000000000 ++
  encLE 8 0x4000000000000000 ++ encLE 8 0x3FD0000000000000 ++ [1, 2, 3, 4]

/-- The arrays the segmented reader produces on segHdr/segData. -/
def segOut : WaveOut :=
  match readWave segHdr true segData 0 with
  | .ok pr => pr.1
  | .error _ => default

set_option maxRecDepth 100000 in
theorem c1_witness :
    ∃ (M Y : List (List Q)),
      segOut.x = .two M ∧
      segOut.y1 = .two Y ∧
      segOut.y2 = .one [] ∧
      M.length = segHdr.SUBARRAY_COUNT.toNat ∧
      Y.length = segHdr.SUBARRAY_COUNT.toNat ∧
      (∀ i, i < segHdr.SUBARRAY_COUNT.toNat →
        M.getD i [] = specSegRow segHdr true segData 0
          (segHdr.WAVE_ARRAY_COUNT.ediv segHdr.SUBARRAY_COUNT).toNat i) ∧
      Y = reshape2 segHdr.SUBARRAY_COUNT.toNat
        (segHdr.WAVE_ARRAY_COUNT.ediv segHdr.SUBARRAY_COUNT).toNat
        (specSamples segHdr true segData (0 + segHdr.SUBARRAY_COUNT.toNat * 16)
          segHdr.WAVE_ARRAY_COUNT.toNat (sampWidth segHdr)) ∧
      (∀ i, i < segHdr.SUBARRAY_COUNT.toNat →
        (Y.getD i []).length =
          (segHdr.WAVE_ARRAY_COUNT.ediv segHdr.SUBARRAY_COUNT).toNat) :=
  c1_segmented_arrays segHdr true segData 0 segOut 36 (by decide) (by decide)

/-- A header for a single sweep with a secondary channel: 2 byte-wide
samples per channel, gain 2, offset 1, interval 3, horizontal offset 5. -/
def sglHdr : Header :=
  { (default : Header) with
    SUBARRAY_COUNT := 1, WAVE_ARRAY_COUNT := 2, WAVE_ARRAY_2 := 1,
    COMM_TYPE_INDEX := 0, VERTICAL_GAIN := 2, VERTICAL_OFFSET := 1,
    HORIZ_INTERVAL := 3, HORIZ_OFFSET := 5 }

/-- Payload for sglHdr: two primary samples then two secondary samples. -/
def sglData : List Nat := [1, 255, 2, 3]

/-- The arrays the single-sweep reader produces on sglHdr/sglData. -/
def sglOut : WaveOut :=
  match readWave sglHdr true sglData 0 with
  | .ok pr => pr.1
  | .error _ => default

set_option maxRecDepth 100000 in
theorem c2_witness :
    sglOut.x = .one ((List.range sglHdr.WAVE_ARRAY_COUNT.toNat).map fun j =>
      (j : Q) * sglHdr.HORIZ_INTERVAL + sglHdr.HORIZ_OFFSET) ∧
    sglOut.y1 = .one (specSamples sglHdr true sglData 0
      sglHdr.WAVE_ARRAY_COUNT.toNat (sampWidth sglHdr)) ∧
    (sglHdr.WAVE_ARRAY_2 ≤ 0 → sglOut.y2 = .one []) ∧
    (0 < sglHdr.WAVE_ARRAY_2 →
      sglOut.y2 = .one (specSamples sglHdr true sglData
        (0 + sglHdr.WAVE_ARRAY_COUNT.toNat * sampWidth sglHdr)
        sglHdr.WAVE_ARRAY_COUNT.toNat (sampWidth sglHdr)) ∧
      (specSamples sglHdr true sglData
        (0 + sglHdr.WAVE_ARRAY_COUNT.toNat * sampWidth sglHdr)
        sglHdr.WAVE_ARRAY_COUNT.toNat (sampWidth sglHdr)).length =
      (specSamples sglHdr true sglData 0
        sglHdr.WAVE_ARRAY_COUNT.toNat (sampWidth sglHdr)).length) :=
  c2_single_sweep sglHdr true sglData 0 sglOut 4
    (by decide) (by decide) (by decide) (by decide)

/-- A header whose 3 samples do not split evenly into 2 segments. -/
def unevenHdr : Header :=
  { (default : Header) with SUBARRAY_COUNT := 2, WAVE_ARRAY_COUNT := 3 }

theorem c7_witness :
    readWave unevenHdr true [] 5 = .error (.unevenSegmentSplit, 5) :=
  c7_uneven_split unevenHdr true [] 5 (by decide) (by decide)

set_option maxRecDepth 100000 in
theorem c6_witness :
    decodeFields mismFile 8 true 1 "LOFIRST" 10 "WAVEDESC" =
      .error .headerLengthMismatch := by
  cases hq : decodeFieldsCore mismFile 8 true 1 "LOFIRST" 10 "WAVEDESC" with
  | error e =>
    have hprobe : coreProbe (decodeFieldsCore mismFile 8 true 1 "LOFIRST" 10 "WAVEDESC") =
        some (354, 347) := by decide
    rw [hq] at hprobe
    simp [coreProbe] at hprobe
  | ok pr =>
    have hprobe : coreProbe (decodeFieldsCore mismFile 8 true 1 "LOFIRST" 10 "WAVEDESC") =
        some (354, 347) := by decide
    rw [hq] at hprobe
    simp only [coreProbe] at hprobe
    have hp2 : pr.2 = 354 := congrArg Prod.fst (Option.some.inj hprobe)
    have hwd : pr.1.WAVE_DESCRIPTOR = 347 := congrArg Prod.snd (Option.some.inj hprobe)
    exact c6_header_length_mismatch mismFile 8 true 1 "LOFIRST" 10 "WAVEDESC" pr.1 pr.2
      (by rw [hq]) (by rw [hp2, hwd]; decide)

set_option maxRecDepth 100000 in
theorem c10_witness :
    (hdrOf (decode mainFile)).isSome = true ∧
    (hdrOf (decode mainFile)).map (fun h => h.TIMEBASE_INDEX) ≠ some 100 := by
  refine ⟨by decide, ?_⟩
  cases hq : decode mainFile with
  | error e =>
    have hs : (hdrOf (decode mainFile)).isSome = true := by decide
    rw [hq] at hs
    simp [hdrOf] at hs
  | ok r =>
    have hne := c10_external_timebase_never_returns mainFile r hq
    intro hc
    simp [hdrOf] at hc
    exact hne hc

set_option maxRecDepth 100000 in
theorem c3_witness :
    (hdrOf (decode mainFile)).map (fun h => h.FILE_SIZE) =
      some (leVal (((mainFile.take 32).drop 4).take (8 - 4)) + 8) := by
  cases hq : decode mainFile with
  | error e =>
    have hs : (hdrOf (decode mainFile)).isSome = true := by decide
    rw [hq] at hs
    simp [hdrOf] at hs
  | ok r =>
    obtain ⟨k, hk, hfs, -⟩ := c3_file_size mainFile r hq
    have hk8 : findSub wavedescTok (mainFile.take 32) = some 8 := by decide
    rw [hk] at hk8
    have hkk : k = 8 := Option.some.inj hk8
    subst hkk
    simp [hdrOf, hfs]

set_option maxRecDepth 100000 in
theorem c3_counterexample :
    findSub wavedescTok (mainFile.take 32) = some 8 ∧
    (hdrOf (decode mainFile)).map (fun h => h.FILE_SIZE) = some 10 ∧
    leVal ((mainFile.take 32).take 8) + 8 ≠ 10 :=
  ⟨by decide, by decide, by decide⟩

set_option maxRecDepth 100000 in
theorem c4_witness :
    (hdrOf (decode mainFile)).isSome = true ∧
    (hdrOf (decode mainFile)).map (fun h =>
      decide (pyResolves commTypeTbl h.COMM_TYPE_INDEX h.COMM_TYPE ∧
        pyResolves commOrderTbl h.COMM_ORDER_INDEX h.COMM_ORDER ∧
        pyResolves recordTypeTbl h.RECORD_TYPE_INDEX h.RECORD_TYPE ∧
        pyResolves processingTbl h.PROCESSING_DONE_INDEX h.PROCESSING_DONE ∧
        pyResolves vertCouplingTbl h.VERT_COUPLING_INDEX h.VERT_COUPLING ∧
        pyResolves bandwidthTbl h.BANDWIDTH_LIMIT_INDEX h.BANDWIDTH_LIMIT)) =
      some true := by
  refine ⟨by decide, ?_⟩
  cases hq : decode mainFile with
  | error e =>
    have hs : (hdrOf (decode mainFile)).isSome = true := by decide
    rw [hq] at hs
    simp [hdrOf] at hs
  | ok r =>
    have hres := c4_enum_resolution mainFile r hq
    simp [hdrOf, decide_eq_true_eq]
    exact hres

set_option maxRecDepth 100000 in
theorem c4_counterexample :
    (hdrOf (decode negIdxFile)).map (fun h => (h.RECORD_TYPE_INDEX, h.RECORD_TYPE)) =
      some (-1, "peak detect") ∧
    ((-1 : Int) < 0) :=
  ⟨by decide, by decide⟩

set_option maxRecDepth 100000 in
theorem c5_witness :
    (hdrOf (decode mainFile)).isSome = true ∧
    (hdrOf (decode mainFile)).map (fun h =>
      decide (h.TIMEBASE = (if h.TIMEBASE_INDEX = 100 then "EXTERNAL"
          else float2eng (tbValue h.TIMEBASE_INDEX) ++ h.HORUNIT ++ "/div") ∧
        h.FIXED_VERT_GAIN =
          float2eng (fvgValue h.FIXED_VERT_GAIN_INDEX) ++ h.VERTUNIT ++ "/div")) =
      some true := by
  refine ⟨by decide, ?_⟩
  cases hq : decode mainFile with
  | error e =>
    have hs : (hdrOf (decode mainFile)).isSome = true := by decide
    rw [hq] at hs
    simp [hdrOf] at hs
  | ok r =>
    have hres := c5_engineering_labels mainFile r hq
    simp [hdrOf, decide_eq_true_eq]
    exact hres

/-- The TIMEBASE label the claim prescribes, with the exponent computed by
flooring code/3 instead of the truncation toward zero the source performs. -/
def claimTimebaseLabel (code : Int) (hu : String) : String :=
  float2eng (divisionsTbl.getD ((code.emod 3).toNat) 0 *
    Q.powZ 10 (Int.fdiv code 3 - 12)) ++ hu ++ "/div"

set_option maxRecDepth 100000 in
theorem c5_counterexample :
    (hdrOf (decode tbNegFile)).map (fun h => (h.TIMEBASE_INDEX, h.TIMEBASE, h.HORUNIT)) =
      some (-1, "5 ps/div", "s") ∧
    claimTimebaseLabel (-1) "s" = "500 fs/div" ∧
    ("5 ps/div" : String) ≠ "500 fs/div" :=
  ⟨by decide, by decide, by decide⟩

set_option maxRecDepth 100000 in
theorem c8_witness :
    (hdrOf (decode mainFile)).isSome = true ∧
    (hdrOf (decode mainFile)).map (fun h =>
      decide (utf8? (rstripX (((mainFile.take 32).drop 8).take 16)) =
          some h.DESCRIPTOR_NAME ∧
        utf8? (rstripX ((mainFile.drop (8 + 16)).take 16)) = some h.TEMPLATE_NAME ∧
        utf8? (rstrip0 ((mainFile.drop (8 + 76)).take 16)) = some h.INSTRUMENT_NAME ∧
        utf8? (rstrip0 ((mainFile.drop (8 + 96)).take 16)) = some h.TRACE_LABEL ∧
        utf8? (rstripX ((mainFile.drop (8 + 196)).take 48)) = some h.VERTUNIT ∧
        utf8? (rstripX ((mainFile.drop (8 + 244)).take 48)) = some h.HORUNIT)) =
      some true := by
  refine ⟨by decide, ?_⟩
  cases hq : decode mainFile with
  | error e =>
    have hs : (hdrOf (decode mainFile)).isSome = true := by decide
    rw [hq] at hs
    simp [hdrOf] at hs
  | ok r =>
    obtain ⟨k, hk, h1, h2, h3, h4, h5, h6⟩ := c8_string_trimming mainFile r hq
    have hk8 : findSub wavedescTok (mainFile.take 32) = some 8 := by decide
    rw [hk] at hk8
    have hkk : k = 8 := Option.some.inj hk8
    subst hkk
    simp [hdrOf, decide_eq_true_eq]
    exact ⟨h1, h2, h3, h4, h5, h6⟩

set_option maxRecDepth 100000 in
theorem c8_counterexample :
    utf8? (rstrip0 ((mainFile.drop (8 + 196)).take 48)) = some "V0" ∧
    (hdrOf (decode mainFile)).map (fun h => h.VERTUNIT) = some "V" ∧
    ("V" : String) ≠ "V0" :=
  ⟨by decide, by decide, by decide⟩

end Lecroy
